import Mathlib

/-!
Verification of the request/response core of the qvpn repository
(src/quinn-server.rs `handle_request`, src/quinn-client.rs `main`).

Bytes are modelled as `Nat` (values below 256 on real inputs), byte
strings as `List Nat`, filesystem paths as lists of path components
(`List (List Nat)`), and the filesystem as a function from a resolved
component list to the optional byte contents of the file stored there.
All panics inside `handle_request` are modelled as `Except.error` with a
`SrvErr` naming the panic site.
-/

namespace QServer

/-- The bytes of the literal token "GET " checked at the start of a request. -/
def GET_TOKEN : List Nat := [71, 69, 84, 32]

/-- The bytes of the 2-byte request terminator CRLF. -/
def CRLF_TOKEN : List Nat := [13, 10]

/-- The bytes of " HTTP/3", the trailing token appended by the client driver. -/
def SP_HTTP3 : List Nat := [32, 72, 84, 84, 80, 47, 51]

/-- The bytes of the literal not-found status line "HTTP/3 404 NotFound" plus CRLF
written by the server when the resolved path fails to open. -/
def NOT_FOUND_LINE : List Nat :=
  [72, 84, 84, 80, 47, 51, 32, 52, 48, 52, 32, 78, 111, 116, 70, 111, 117, 110, 100, 13, 10]

/-- The panic sites of `handle_request`: the two grammar panics
("missing GET", "missing CRLF") are the spec's MalformedRequest; the
`str::from_utf8(..).unwrap()` panic is `invalidUtf8`; the two path panics
("path must be absolute", "illegal component in path") are the spec's IllegalPath. -/
inductive SrvErr where
  | malformedRequest
  | invalidUtf8
  | illegalPath
deriving DecidableEq

/-- Equality of `Except` values is decidable when it is on both sides. -/
instance {ε α : Type} [DecidableEq ε] [DecidableEq α] : DecidableEq (Except ε α) := fun x y =>
  match x, y with
  | .error a, .error b =>
    if h : a = b then isTrue (by rw [h])
    else isFalse (fun hc => h (Except.error.inj hc))
  | .ok a, .ok b =>
    if h : a = b then isTrue (by rw [h])
    else isFalse (fun hc => h (Except.ok.inj hc))
  | .error _, .ok _ => isFalse (fun hc => Except.noConfusion hc)
  | .ok _, .error _ => isFalse (fun hc => Except.noConfusion hc)

/-- Whether a byte is a UTF-8 continuation byte (0x80 to 0xBF). -/
def isCont (b : Nat) : Bool := 128 ≤ b && b ≤ 191

/-- Strict UTF-8 validity of a byte sequence, exactly the acceptance of Rust's
`str::from_utf8` (rejecting overlong forms, surrogates and code points above
U+10FFFF). -/
def isValidUtf8 : List Nat → Bool
  | [] => true
  | b :: rest =>
    if b ≤ 127 then isValidUtf8 rest
    else if 194 ≤ b && b ≤ 223 then
      match rest with
      | c1 :: r => isCont c1 && isValidUtf8 r
      | [] => false
    else if b = 224 then
      match rest with
      | c1 :: c2 :: r => (160 ≤ c1 && c1 ≤ 191) && isCont c2 && isValidUtf8 r
      | _ => false
    else if (225 ≤ b && b ≤ 236) || b = 238 || b = 239 then
      match rest with
      | c1 :: c2 :: r => isCont c1 && isCont c2 && isValidUtf8 r
      | _ => false
    else if b = 237 then
      match rest with
      | c1 :: c2 :: r => (128 ≤ c1 && c1 ≤ 159) && isCont c2 && isValidUtf8 r
      | _ => false
    else if b = 240 then
      match rest with
      | c1 :: c2 :: c3 :: r => (144 ≤ c1 && c1 ≤ 191) && isCont c2 && isCont c3 && isValidUtf8 r
      | _ => false
    else if 241 ≤ b && b ≤ 243 then
      match rest with
      | c1 :: c2 :: c3 :: r => isCont c1 && isCont c2 && isCont c3 && isValidUtf8 r
      | _ => false
    else if b = 244 then
      match rest with
      | c1 :: c2 :: c3 :: r => (128 ≤ c1 && c1 ≤ 143) && isCont c2 && isCont c3 && isValidUtf8 r
      | _ => false
    else false

/-- The bytes strictly between the "GET " prefix and the CRLF terminator,
`&x[4..x.len() - 2]` (line 173). -/
def pathRegion (req : List Nat) : List Nat := (req.drop 4).take (req.length - 6)

/-- The path bytes extracted from a request: the path region cut at its first
space byte, `x.iter().position(c == b' ').unwrap_or(x.len())` then `&x[..end]`
(lines 174 to 175); `List.findIdx` returns the length when no byte matches,
exactly as `unwrap_or_else(|| x.len())` does. -/
def requestPathBytes (req : List Nat) : List Nat :=
  (pathRegion req).take ((pathRegion req).findIdx (fun c => c == 32))

/-- The request parser of `handle_request` (quinn-server.rs lines 166 to 175):
reject unless the input starts with "GET " and, with at least 2 bytes after
"GET ", ends with CRLF; strip both markers, cut the remainder at its first
space byte, and require the cut part to be valid UTF-8.  Returns the path
bytes. -/
def parseRequest (req : List Nat) : Except SrvErr (List Nat) :=
  if req.length < 4 ∨ req.take 4 ≠ GET_TOKEN then
    .error .malformedRequest
  else if req.length - 4 < 2 ∨ req.drop (req.length - 2) ≠ CRLF_TOKEN then
    .error .malformedRequest
  else if isValidUtf8 (requestPathBytes req) then
    .ok (requestPathBytes req)
  else
    .error .invalidUtf8

/-- Split a byte string at every separator byte 47, keeping empty pieces:
the pieces of `splitAll p` laid between single 47s reassemble `p`.
This models the raw field structure that std path component iteration
is built from. -/
def splitAll : List Nat → List (List Nat)
  | [] => [[]]
  | b :: rest =>
    if b = 47 then [] :: splitAll rest
    else
      match splitAll rest with
      | [] => [[b]]
      | s :: ss => (b :: s) :: ss

/-- The nonempty pieces of a byte path split at 47: repeated separators and
leading or trailing separators contribute nothing, exactly as in std
`Path::components` on Unix ("repeated separators are ignored"). -/
def rawSegments (p : List Nat) : List (List Nat) :=
  (splitAll p).filter (fun s => decide (s ≠ []))

/-- Whether the byte path starts with the separator byte 47, i.e. whether the
std path `has_root` on Unix. -/
def startsWithSlash : List Nat → Bool
  | [] => false
  | b :: _ => b == 47

/-- The byte string "." as a path segment. -/
def DOT : List Nat := [46]

/-- The byte string ".." as a path segment. -/
def DOTDOT : List Nat := [46, 46]

/-- The components produced by std `Path::components` on Unix. -/
inductive PComponent where
  | rootDir
  | curDir
  | parentDir
  | normal (s : List Nat)
deriving DecidableEq

/-- A non-root raw segment as a component: ".." is ParentDir, everything else
(already filtered of "." and empties) is Normal. -/
def toComp (s : List Nat) : PComponent := if s = DOTDOT then .parentDir else .normal s

/-- The components after any leading RootDir or CurDir: "." segments are
normalized away ("occurrences of . are normalized away, except if they are at
the beginning of the path"). -/
def bodyComps (segs : List (List Nat)) : List PComponent :=
  (segs.filter (fun s => decide (s ≠ DOT))).map toComp

/-- The components of a relative (rootless) path: a leading "." segment is
kept as CurDir, every other "." segment is normalized away. -/
def leadComps : List (List Nat) → List PComponent
  | [] => []
  | s :: rest =>
    if s = DOT then PComponent.curDir :: bodyComps rest
    else bodyComps (s :: rest)

/-- Model of std `Path::components` on Unix, per its documented normalization:
repeated separators are ignored, "." is normalized away except as the
first component, a trailing separator is ignored, and a leading separator
yields RootDir. -/
def pathComponents (p : List Nat) : List PComponent :=
  if startsWithSlash p then
    PComponent.rootDir :: bodyComps (rawSegments p)
  else
    leadComps (rawSegments p)

/-- The component loop of `handle_request` (lines 183 to 192): push every
Normal component onto the accumulated real path, panic ("illegal component
in path") on anything else. -/
def resolveLoop (acc : List (List Nat)) : List PComponent → Except SrvErr (List (List Nat))
  | [] => .ok acc
  | PComponent.normal x :: rest => resolveLoop (acc ++ [x]) rest
  | _ :: _ => .error .illegalPath

/-- The path resolver of `handle_request` (lines 176 to 192): the first
component must be RootDir ("path must be absolute"), every further component
must be Normal, and the accepted components are pushed in order onto the
served root. -/
def resolvePath (root : List (List Nat)) (p : List Nat) : Except SrvErr (List (List Nat)) :=
  match pathComponents p with
  | PComponent.rootDir :: rest => resolveLoop root rest
  | _ => .error .illegalPath

/-- The fixed chunk size of the response loop, `const SIZE: usize = 1024 * 100`. -/
def SIZE : Nat := 1024 * 100

/-- The chunks actually written by the response loop (lines 210 to 223):
`read_exact` into a SIZE-byte buffer succeeds only while at least SIZE bytes
remain, and fails with UnexpectedEof on the final partial chunk, which ends
the `while let Ok(len)` loop without writing the remainder. -/
def streamChunks (c : List Nat) : List (List Nat) :=
  if SIZE ≤ c.length then
    c.take SIZE :: streamChunks (c.drop SIZE)
  else []
termination_by c.length
decreasing_by
  have hs : 0 < SIZE := by decide
  simp only [List.length_drop]
  omega

/-- The total bytes written to the stream for an opened file with contents `c`. -/
def streamFile (c : List Nat) : List Nat := (streamChunks c).flatten

/-- The response status: exactly one is produced per surviving request.
`ok` carries the contents of the file that was opened. -/
inductive Status where
  | ok (contents : List Nat)
  | notFound
deriving DecidableEq

/-- What goes over the wire for a status: the sequence of write calls and
whether finish was called. -/
structure Wire where
  writes : List (List Nat)
  finished : Bool
deriving DecidableEq

/-- The wire actions of each status: the not-found branch writes the literal
status line and finishes; the success branch writes the full chunks and
finishes. -/
def statusWire : Status → Wire
  | .notFound => ⟨[NOT_FOUND_LINE], true⟩
  | .ok c => ⟨streamChunks c, true⟩

/-- All bytes written on a wire, in order. -/
def Wire.bytes (w : Wire) : List Nat := w.writes.flatten

/-- The response step at an attempted open: the first argument is the open
result `fs rp`, the second the resolved path `rp` that was attempted. -/
def openAt : Option (List Nat) → List (List Nat) →
    Except SrvErr Status × List (List (List Nat))
  | none, rp => (.ok .notFound, [rp])
  | some contents, rp => (.ok (.ok contents), [rp])

/-- The handler continuation after resolution: a resolution panic kills the
handler with no open attempted; otherwise the open of the resolved path is
attempted and answered. -/
def afterResolve (fs : List (List Nat) → Option (List Nat)) :
    Except SrvErr (List (List Nat)) → Except SrvErr Status × List (List (List Nat))
  | .error e => (.error e, [])
  | .ok rp => openAt (fs rp) rp

/-- The handler continuation after parsing: a parse panic kills the handler
with no open attempted; otherwise the parsed path is resolved. -/
def afterParse (fs : List (List Nat) → Option (List Nat)) (root : List (List Nat)) :
    Except SrvErr (List Nat) → Except SrvErr Status × List (List (List Nat))
  | .error e => (.error e, [])
  | .ok pathBytes => afterResolve fs (resolvePath root pathBytes)

/-- The whole of `handle_request` (lines 150 to 231) after the stream has been
read to end: parse, resolve against the root, attempt the open, and respond.
The first projection is the outcome (`error` = the panic that killed the
handler), the second lists the resolved paths on which a filesystem open was
attempted, in order. -/
def handle_request (fs : List (List Nat) → Option (List Nat))
    (root : List (List Nat)) (req : List Nat) :
    Except SrvErr Status × List (List (List Nat)) :=
  afterParse fs root (parseRequest req)

/-- The request line formatted by the client driver (quinn-client.rs line 43):
"GET " plus the path plus " HTTP/3" plus CRLF. -/
def clientRequest (p : List Nat) : List Nat :=
  GET_TOKEN ++ p ++ SP_HTTP3 ++ CRLF_TOKEN

/-- A plain file-name path segment: nonempty, not "." or "..", and free of the
separator byte; such segments cannot navigate upward or across the tree. -/
def plainName (s : List Nat) : Prop :=
  s ≠ [] ∧ s ≠ DOT ∧ s ≠ DOTDOT ∧ ¬ 47 ∈ s

/-- The raw path contains a parent-directory field ".." somewhere. -/
def hasDotDot (p : List Nat) : Prop := DOTDOT ∈ rawSegments p

/-- Containment of ".." among the raw segments is decidable. -/
instance (p : List Nat) : Decidable (hasDotDot p) :=
  inferInstanceAs (Decidable (DOTDOT ∈ rawSegments p))

/-- A demonstration served root, the single directory name "srv". -/
def rootDemo : List (List Nat) := [[115, 114, 118]]

/-- A filesystem with no files at all. -/
def emptyFS : List (List Nat) → Option (List Nat) := fun _ => none

/-- A filesystem holding exactly the file srv/a with contents "hi". -/
def demoFS : List (List Nat) → Option (List Nat) :=
  fun rp => if rp = [[115, 114, 118], [97]] then some [104, 105] else none

/-! ## Supporting lemmas -/

theorem splitAll_ne_nil (l : List Nat) : splitAll l ≠ [] := by
  match l with
  | [] => simp [splitAll]
  | b :: rest =>
    simp only [splitAll]
    split
    · simp
    · split <;> simp

theorem not_sep_of_mem_splitAll (l : List Nat) : ∀ s ∈ splitAll l, ¬ 47 ∈ s := by
  induction l with
  | nil =>
    intro s hs
    simp [splitAll] at hs
    simp [hs]
  | cons b rest ih =>
    intro s hs
    by_cases hb : b = 47
    · simp only [splitAll, if_pos hb] at hs
      rcases List.mem_cons.mp hs with h | h
      · simp [h]
      · exact ih s h
    · cases hsp : splitAll rest with
      | nil => exact absurd hsp (splitAll_ne_nil rest)
      | cons s0 ss =>
        simp only [splitAll, if_neg hb, hsp] at hs
        rcases List.mem_cons.mp hs with h | h
        · subst h
          intro hmem
          rcases List.mem_cons.mp hmem with h47 | h47
          · exact hb h47.symm
          · exact ih s0 (by rw [hsp]; exact List.mem_cons_self s0 ss) h47
        · exact ih s (by rw [hsp]; exact List.mem_cons_of_mem s0 h)

theorem splitAll_append_sep (x y : List Nat) :
    splitAll (x ++ 47 :: y) = splitAll x ++ splitAll y := by
  induction x with
  | nil => simp [splitAll]
  | cons b rest ih =>
    by_cases hb : b = 47
    · simp [splitAll, hb, ih]
    · cases hsp : splitAll rest with
      | nil => exact absurd hsp (splitAll_ne_nil rest)
      | cons s0 ss => simp [splitAll, hb, ih, hsp]

theorem rawSegments_append_sep (x y : List Nat) :
    rawSegments (x ++ 47 :: y) = rawSegments x ++ rawSegments y := by
  simp [rawSegments, splitAll_append_sep, List.filter_append]

theorem rawSegments_sep_cons (y : List Nat) : rawSegments (47 :: y) = rawSegments y := by
  simp [rawSegments, splitAll]

theorem mem_rawSegments (p s : List Nat) (h : s ∈ rawSegments p) : s ≠ [] ∧ ¬ 47 ∈ s := by
  rw [rawSegments, List.mem_filter] at h
  refine ⟨?_, not_sep_of_mem_splitAll p s h.1⟩
  simpa using h.2

theorem pathComponents_congr {s t : List Nat}
    (h1 : startsWithSlash s = startsWithSlash t)
    (h2 : rawSegments s = rawSegments t) : pathComponents s = pathComponents t := by
  unfold pathComponents
  rw [h1, h2]

theorem resolveLoop_map_normal (xs : List (List Nat)) :
    ∀ acc, resolveLoop acc (xs.map PComponent.normal) = .ok (acc ++ xs) := by
  induction xs with
  | nil => intro acc; simp [resolveLoop]
  | cons x xs ih =>
    intro acc
    have : resolveLoop acc (PComponent.normal x :: xs.map PComponent.normal) =
        resolveLoop (acc ++ [x]) (xs.map PComponent.normal) := rfl
    simp only [List.map_cons, this, ih]
    simp

theorem resolveLoop_parentDir :
    ∀ (comps : List PComponent), PComponent.parentDir ∈ comps →
      ∀ acc, resolveLoop acc comps = .error .illegalPath := by
  intro comps
  induction comps with
  | nil => intro h; cases h
  | cons c rest ih =>
    intro h acc
    match c with
    | .normal x =>
      have hm : PComponent.parentDir ∈ rest := by
        rcases List.mem_cons.mp h with h0 | h0
        · exact absurd h0 (by simp)
        · exact h0
      exact ih hm (acc ++ [x])
    | .parentDir => rfl
    | .curDir => rfl
    | .rootDir => rfl

theorem resolveLoop_ok_inv :
    ∀ (comps : List PComponent) (acc out : List (List Nat)),
      resolveLoop acc comps = .ok out →
      ∃ xs, comps = xs.map PComponent.normal ∧ out = acc ++ xs := by
  intro comps
  induction comps with
  | nil =>
    intro acc out h
    refine ⟨[], rfl, ?_⟩
    simp only [resolveLoop] at h
    simpa using (Except.ok.inj h).symm
  | cons c rest ih =>
    intro acc out h
    match c with
    | .normal x =>
      have h' : resolveLoop (acc ++ [x]) rest = .ok out := h
      obtain ⟨xs, hxs, hout⟩ := ih (acc ++ [x]) out h'
      refine ⟨x :: xs, by simp [hxs], ?_⟩
      simp [hout]
    | .parentDir => exact absurd h (by simp [resolveLoop])
    | .curDir => exact absurd h (by simp [resolveLoop])
    | .rootDir => exact absurd h (by simp [resolveLoop])

theorem bodyComps_all_normal {segs : List (List Nat)} (h : ¬ DOTDOT ∈ segs) :
    bodyComps segs = (segs.filter (fun s => decide (s ≠ DOT))).map PComponent.normal := by
  unfold bodyComps
  apply List.map_congr_left
  intro s hs
  have hsX : s ∈ segs := List.mem_of_mem_filter hs
  have hne : s ≠ DOTDOT := fun he => h (he ▸ hsX)
  simp [toComp, hne]

theorem resolvePath_ok_of_no_dotdot (root : List (List Nat)) (p : List Nat)
    (hs : startsWithSlash p = true) (hd : ¬ DOTDOT ∈ rawSegments p) :
    resolvePath root p =
      .ok (root ++ (rawSegments p).filter (fun s => decide (s ≠ DOT))) := by
  have hpc : pathComponents p = PComponent.rootDir ::
      ((rawSegments p).filter (fun s => decide (s ≠ DOT))).map PComponent.normal := by
    unfold pathComponents
    rw [if_pos hs, bodyComps_all_normal hd]
  unfold resolvePath
  rw [hpc]
  exact resolveLoop_map_normal _ root

theorem resolvePath_err_not_abs (root : List (List Nat)) (p : List Nat)
    (hs : startsWithSlash p = false) :
    resolvePath root p = .error .illegalPath := by
  have hs' : ¬ startsWithSlash p = true := by simp [hs]
  unfold resolvePath
  cases hseg : rawSegments p with
  | nil =>
    have hpc : pathComponents p = [] := by
      unfold pathComponents
      rw [if_neg hs', hseg, leadComps]
    rw [hpc]
  | cons s rest =>
    by_cases hdot : s = DOT
    · have hpc : pathComponents p = PComponent.curDir :: bodyComps rest := by
        unfold pathComponents
        rw [if_neg hs', hseg, leadComps, if_pos hdot]
      rw [hpc]
    · have hfil : (s :: rest).filter (fun t => decide (t ≠ DOT)) =
          s :: rest.filter (fun t => decide (t ≠ DOT)) := by
        simp [hdot]
      have hpc : pathComponents p =
          toComp s :: (rest.filter (fun t => decide (t ≠ DOT))).map toComp := by
        unfold pathComponents
        rw [if_neg hs', hseg, leadComps, if_neg hdot]
        unfold bodyComps
        rw [hfil, List.map_cons]
      rw [hpc]
      unfold toComp
      by_cases hdd : s = DOTDOT
      · rw [if_pos hdd]
      · rw [if_neg hdd]

theorem resolvePath_err_dotdot (root : List (List Nat)) (p : List Nat)
    (hd : DOTDOT ∈ rawSegments p) :
    resolvePath root p = .error .illegalPath := by
  cases hs : startsWithSlash p with
  | false => exact resolvePath_err_not_abs root p hs
  | true =>
    have hmem : PComponent.parentDir ∈ bodyComps (rawSegments p) := by
      unfold bodyComps
      exact List.mem_map.mpr ⟨DOTDOT, List.mem_filter.mpr ⟨hd, by decide⟩, by simp [toComp]⟩
    have hpc : pathComponents p = PComponent.rootDir :: bodyComps (rawSegments p) := by
      unfold pathComponents
      rw [if_pos hs]
    unfold resolvePath
    rw [hpc]
    exact resolveLoop_parentDir _ hmem root

theorem pathComponents_rootDir_inv {p : List Nat} {rest : List PComponent}
    (h : pathComponents p = PComponent.rootDir :: rest) :
    rest = bodyComps (rawSegments p) := by
  unfold pathComponents at h
  by_cases hs : startsWithSlash p = true
  · rw [if_pos hs] at h
    exact ((List.cons.inj h).2).symm
  · rw [if_neg hs] at h
    cases hseg : rawSegments p with
    | nil =>
      rw [hseg, leadComps] at h
      exact absurd h (by simp)
    | cons s rest2 =>
      rw [hseg, leadComps] at h
      by_cases hdot : s = DOT
      · rw [if_pos hdot] at h
        exact absurd (List.cons.inj h).1 (by simp)
      · rw [if_neg hdot] at h
        have hfil : (s :: rest2).filter (fun t => decide (t ≠ DOT)) =
            s :: rest2.filter (fun t => decide (t ≠ DOT)) := by
          simp [hdot]
        unfold bodyComps at h
        rw [hfil, List.map_cons] at h
        have hhead := (List.cons.inj h).1
        unfold toComp at hhead
        by_cases hdd : s = DOTDOT
        · rw [if_pos hdd] at hhead
          exact absurd hhead (by simp)
        · rw [if_neg hdd] at hhead
          exact absurd hhead (by simp)

theorem streamChunks_flatten (c : List Nat) :
    (streamChunks c).flatten = c.take (SIZE * (c.length / SIZE)) := by
  induction c using streamChunks.induct with
  | case1 c h ih =>
    rw [streamChunks, if_pos h, List.flatten_cons, ih, List.length_drop]
    have hq : c.length / SIZE = (c.length - SIZE) / SIZE + 1 :=
      Nat.div_eq_sub_div (by decide) h
    rw [hq, Nat.mul_add, Nat.mul_one, Nat.add_comm (SIZE * ((c.length - SIZE) / SIZE)) SIZE,
      List.take_add]
  | case2 c h =>
    rw [streamChunks, if_neg h]
    have hz : c.length / SIZE = 0 := Nat.div_eq_of_lt (Nat.lt_of_not_le h)
    simp [hz]

/-! ## Claim theorems -/

/-- C9: the exact 6-byte input "GET " plus CRLF satisfies the request grammar
(exactly 2 bytes remain after "GET " and they are the CRLF terminator) and
yields the empty path; the path resolver then rejects the empty path because
its first component is not the root marker, so the request is rejected at the
resolving step, not the parsing step, with no filesystem open attempted. -/
theorem c9_empty_path_rejected_at_resolve (root : List (List Nat))
    (fs : List (List Nat) → Option (List Nat)) :
    parseRequest [71, 69, 84, 32, 13, 10] = .ok [] ∧
    resolvePath root [] = .error .illegalPath ∧
    handle_request fs root [71, 69, 84, 32, 13, 10] = (.error .illegalPath, []) :=
  ⟨rfl, rfl, rfl⟩

/-- C10: the path resolver is invariant under repeated separators: doubling any
separator byte of a request path (for example "/a//b" versus "/a/b") leaves
the result of resolution, acceptance or rejection alike, unchanged, because
component iteration collapses duplicate separators. -/
theorem c10_separator_collapse (root : List (List Nat)) (pre post : List Nat) :
    resolvePath root (pre ++ 47 :: 47 :: post) = resolvePath root (pre ++ 47 :: post) := by
  have h1 : startsWithSlash (pre ++ 47 :: 47 :: post) = startsWithSlash (pre ++ 47 :: post) := by
    cases pre <;> simp [startsWithSlash]
  have h2 : rawSegments (pre ++ 47 :: 47 :: post) = rawSegments (pre ++ 47 :: post) := by
    rw [rawSegments_append_sep pre (47 :: post), rawSegments_sep_cons,
      rawSegments_append_sep pre post]
  unfold resolvePath
  rw [pathComponents_congr h1 h2]

/-- C3 counterexample: on the request "GET /a b" plus CRLF the parser succeeds
with path "/a", not with the bytes strictly between the two markers, which are
"/a b"; the claim that the path is the whole region between the markers fails
whenever the region contains a space. -/
theorem c3_trailing_token_cex :
    parseRequest [71, 69, 84, 32, 47, 97, 32, 98, 13, 10] = .ok [47, 97] ∧
    pathRegion [71, 69, 84, 32, 47, 97, 32, 98, 13, 10] = [47, 97, 32, 98] ∧
    ([47, 97] : List Nat) ≠ [47, 97, 32, 98] :=
  ⟨rfl, rfl, by decide⟩

/-- C3 amended: the parser rejects with MalformedRequest exactly when the input
does not begin with "GET ", or does not end with CRLF, or fewer than 2 bytes
remain after "GET "; whenever it succeeds the returned path is the region
between the two markers truncated at its first space byte (the trailing token
is discarded), which is valid UTF-8; and conversely, whenever the grammar
holds and that truncated region is valid UTF-8, parsing succeeds and returns
it.  (Invalid UTF-8 in the truncated region is rejected by a separate unwrap
panic, not by the MalformedRequest panics.) -/
theorem c3_grammar_amended (req : List Nat) :
    (parseRequest req = .error SrvErr.malformedRequest ↔
      (req.take 4 ≠ GET_TOKEN ∨ req.drop (req.length - 2) ≠ CRLF_TOKEN ∨ req.length < 6)) ∧
    (∀ p, parseRequest req = .ok p → p = requestPathBytes req ∧ isValidUtf8 p = true) ∧
    (req.take 4 = GET_TOKEN → req.drop (req.length - 2) = CRLF_TOKEN → 6 ≤ req.length →
      isValidUtf8 (requestPathBytes req) = true →
      parseRequest req = .ok (requestPathBytes req)) := by
  have hC : req.take 4 = GET_TOKEN → req.drop (req.length - 2) = CRLF_TOKEN →
      6 ≤ req.length → isValidUtf8 (requestPathBytes req) = true →
      parseRequest req = .ok (requestPathBytes req) := by
    intro hTake hCrlf hLen6 hu
    have h1 : ¬(req.length < 4 ∨ req.take 4 ≠ GET_TOKEN) := by
      push_neg
      exact ⟨by omega, hTake⟩
    have h2 : ¬(req.length - 4 < 2 ∨ req.drop (req.length - 2) ≠ CRLF_TOKEN) := by
      push_neg
      exact ⟨by omega, hCrlf⟩
    unfold parseRequest
    rw [if_neg h1, if_neg h2, if_pos hu]
  refine and_assoc.mp ⟨?_, hC⟩
  by_cases h1 : req.length < 4 ∨ req.take 4 ≠ GET_TOKEN
  · constructor
    · unfold parseRequest
      rw [if_pos h1]
      constructor
      · intro _
        rcases h1 with h | h
        · exact Or.inr (Or.inr (by omega))
        · exact Or.inl h
      · intro _
        rfl
    · intro p hp
      unfold parseRequest at hp
      rw [if_pos h1] at hp
      exact absurd hp (by simp)
  · have hTake : req.take 4 = GET_TOKEN := by
      by_contra hne
      exact h1 (Or.inr hne)
    have hLen4 : 4 ≤ req.length := by
      by_contra hlt
      exact h1 (Or.inl (by omega))
    by_cases h2 : req.length - 4 < 2 ∨ req.drop (req.length - 2) ≠ CRLF_TOKEN
    · constructor
      · unfold parseRequest
        rw [if_neg h1, if_pos h2]
        constructor
        · intro _
          rcases h2 with h | h
          · exact Or.inr (Or.inr (by omega))
          · exact Or.inr (Or.inl h)
        · intro _
          rfl
      · intro p hp
        unfold parseRequest at hp
        rw [if_neg h1, if_pos h2] at hp
        exact absurd hp (by simp)
    · have hCrlf : req.drop (req.length - 2) = CRLF_TOKEN := by
        by_contra hne
        exact h2 (Or.inr hne)
      have hLen6 : 6 ≤ req.length := by
        by_contra hlt
        exact h2 (Or.inl (by omega))
      constructor
      · unfold parseRequest
        rw [if_neg h1, if_neg h2]
        constructor
        · intro hcontra
          by_cases hu : isValidUtf8 (requestPathBytes req)
          · rw [if_pos hu] at hcontra
            exact absurd hcontra (by simp)
          · rw [if_neg hu] at hcontra
            exact absurd (Except.error.inj hcontra) (by decide)
        · intro hrhs
          exfalso
          rcases hrhs with h | h | h
          · exact h hTake
          · exact h hCrlf
          · omega
      · intro p hp
        unfold parseRequest at hp
        rw [if_neg h1, if_neg h2] at hp
        by_cases hu : isValidUtf8 (requestPathBytes req)
        · rw [if_pos hu] at hp
          have heq : requestPathBytes req = p := Except.ok.inj hp
          subst heq
          exact ⟨rfl, hu⟩
        · rw [if_neg hu] at hp
          exact absurd hp (by simp)

/-- C3 witness: the amended grammar characterization applied to two concrete
inputs: the 5-byte input "GET " plus CR is rejected as malformed, and the
grammar-satisfying valid-text input "GET /x" plus CRLF parses successfully to
its truncated path region "/x". -/
theorem c3_grammar_witness :
    parseRequest [71, 69, 84, 32, 13] = .error SrvErr.malformedRequest ∧
    parseRequest [71, 69, 84, 32, 47, 120, 13, 10] =
      .ok (requestPathBytes [71, 69, 84, 32, 47, 120, 13, 10]) :=
  ⟨(c3_grammar_amended [71, 69, 84, 32, 13]).1.mpr (by decide),
   (c3_grammar_amended [71, 69, 84, 32, 47, 120, 13, 10]).2.2
     (by decide) (by decide) (by decide) (by decide)⟩

/-- C6: round-trip between client formatting and server parsing: for every
path p containing no space byte that is valid text, parsing the
client-formatted request "GET " plus p plus " HTTP/3" plus CRLF succeeds and
the extracted path is exactly p, because everything after the first space
inside the path region is discarded as a trailing token. -/
theorem c6_client_server_roundtrip (p : List Nat) (hsp : ¬ 32 ∈ p)
    (hu : isValidUtf8 p = true) :
    parseRequest (clientRequest p) = .ok p := by
  have hassoc : clientRequest p = GET_TOKEN ++ (p ++ (SP_HTTP3 ++ CRLF_TOKEN)) := by
    simp [clientRequest, List.append_assoc]
  have hlen : (clientRequest p).length = p.length + 13 := by
    simp [clientRequest, GET_TOKEN, SP_HTTP3, CRLF_TOKEN]
  have hdrop : (clientRequest p).drop 4 = p ++ (SP_HTTP3 ++ CRLF_TOKEN) := by
    rw [hassoc]
    exact List.drop_left' rfl
  have hregion : pathRegion (clientRequest p) = p ++ SP_HTTP3 := by
    rw [pathRegion, hdrop, hlen, ← List.append_assoc]
    exact List.take_left' (by simp [SP_HTTP3])
  have hfind : (p ++ SP_HTTP3).findIdx (fun c => c == 32) = p.length := by
    rw [List.findIdx_append]
    have hfp : p.findIdx (fun c => c == 32) = p.length := by
      apply List.findIdx_eq_length_of_false
      intro x hx
      have hne : x ≠ 32 := fun hx32 => hsp (hx32 ▸ hx)
      simpa using hne
    rw [hfp]
    simp [SP_HTTP3, List.findIdx_cons]
  have hpb : requestPathBytes (clientRequest p) = p := by
    rw [requestPathBytes, hregion, hfind]
    exact List.take_left p SP_HTTP3
  have c1 : ¬((clientRequest p).length < 4 ∨ (clientRequest p).take 4 ≠ GET_TOKEN) := by
    push_neg
    constructor
    · omega
    · rw [hassoc]
      exact List.take_left' rfl
  have c2 : ¬((clientRequest p).length - 4 < 2 ∨
      (clientRequest p).drop ((clientRequest p).length - 2) ≠ CRLF_TOKEN) := by
    push_neg
    constructor
    · omega
    · have hl2 : (clientRequest p).length - 2 = (GET_TOKEN ++ p ++ SP_HTTP3).length := by
        simp [GET_TOKEN, SP_HTTP3, List.length_append]
        omega
      rw [hl2]
      exact List.drop_left (GET_TOKEN ++ p ++ SP_HTTP3) CRLF_TOKEN
  unfold parseRequest
  rw [if_neg c1, if_neg c2, hpb, if_pos hu]

/-- C6 witness: the round trip at the concrete path "/a.txt". -/
theorem c6_roundtrip_witness :
    parseRequest (clientRequest [47, 97, 46, 116, 120, 116]) =
      .ok [47, 97, 46, 116, 120, 116] :=
  c6_client_server_roundtrip [47, 97, 46, 116, 120, 116] (by decide) (by decide)

/-- C2: every path accepted by the resolver resolves to the served root
followed, in order, by plain name segments only (nonempty, not "." or "..",
separator-free), so the resolved path never escapes the root; and every
request whose path carries a ".." segment anywhere is rejected by the handler
with IllegalPath before any filesystem open is attempted (the list of
attempted opens is empty). -/
theorem c2_root_confinement (root : List (List Nat))
    (fs : List (List Nat) → Option (List Nat)) (p : List Nat) :
    (∀ rp, resolvePath root p = .ok rp →
      ∃ segs, rp = root ++ segs ∧ ∀ s ∈ segs, plainName s) ∧
    (hasDotDot p → ∀ req, parseRequest req = .ok p →
      handle_request fs root req = (.error .illegalPath, [])) := by
  constructor
  · intro rp hok
    unfold resolvePath at hok
    cases hpc : pathComponents p with
    | nil =>
      rw [hpc] at hok
      exact Except.noConfusion hok
    | cons c rest =>
      rw [hpc] at hok
      match c with
      | .rootDir =>
        have hrest : rest = bodyComps (rawSegments p) := pathComponents_rootDir_inv hpc
        obtain ⟨xs, hxs, hout⟩ := resolveLoop_ok_inv rest root rp hok
        refine ⟨xs, hout, ?_⟩
        intro s hsx
        have h1 : PComponent.normal s ∈ xs.map PComponent.normal :=
          List.mem_map_of_mem PComponent.normal hsx
        rw [← hxs, hrest] at h1
        unfold bodyComps at h1
        obtain ⟨t, ht, htc⟩ := List.mem_map.mp h1
        have htf := List.mem_filter.mp ht
        have htd : t ≠ DOT := by simpa using htf.2
        have htdd : t ≠ DOTDOT := by
          intro hdd
          rw [toComp, if_pos hdd] at htc
          exact PComponent.noConfusion htc
        have hts : t = s := by
          rw [toComp, if_neg htdd] at htc
          exact PComponent.normal.inj htc
        obtain ⟨hne, h47⟩ := mem_rawSegments p t htf.1
        subst hts
        exact ⟨hne, htd, htdd, h47⟩
      | .curDir => exact Except.noConfusion hok
      | .parentDir => exact Except.noConfusion hok
      | .normal x => exact Except.noConfusion hok
  · intro hd req hreq
    unfold handle_request
    rw [hreq]
    simp only [afterParse]
    rw [resolvePath_err_dotdot root p hd]
    simp only [afterResolve]

/-- C2 witness: with root "srv", the accepted path "/a" resolves to root plus
the plain segment "a", and the request "GET /../x" CRLF is rejected with
IllegalPath and an empty list of attempted opens. -/
theorem c2_root_confinement_witness :
    (∃ segs, [[115, 114, 118], [97]] = rootDemo ++ segs ∧ ∀ s ∈ segs, plainName s) ∧
    handle_request emptyFS rootDemo [71, 69, 84, 32, 47, 46, 46, 47, 120, 13, 10] =
      (.error .illegalPath, []) :=
  ⟨(c2_root_confinement rootDemo emptyFS [47, 97]).1 [[115, 114, 118], [97]] rfl,
   (c2_root_confinement rootDemo emptyFS [47, 46, 46, 47, 120]).2 (by decide)
     [71, 69, 84, 32, 47, 46, 46, 47, 120, 13, 10] rfl⟩

/-- C4 counterexample: the request path "/./a" contains a current-reference
(".") component after the root marker, yet the resolver accepts it (resolving
it to root plus "a") instead of rejecting it with IllegalPath: component
iteration normalizes "." away. -/
theorem c4_dot_component_accepted_cex :
    DOT ∈ rawSegments [47, 46, 47, 97] ∧
    resolvePath rootDemo [47, 46, 47, 97] = .ok [[115, 114, 118], [97]] :=
  ⟨by decide, rfl⟩

/-- C4 amended: the resolver rejects with IllegalPath exactly the request
paths that are not absolute (no leading separator) or contain a
parent-reference ("..") segment somewhere; current-reference (".") segments
are normalized away by component iteration and never cause rejection, and on
Unix no other non-name component exists. -/
theorem c4_reject_iff (root : List (List Nat)) (p : List Nat) :
    resolvePath root p = .error SrvErr.illegalPath ↔
      (startsWithSlash p = false ∨ DOTDOT ∈ rawSegments p) := by
  constructor
  · intro h
    by_contra hc
    push_neg at hc
    obtain ⟨hs, hd⟩ := hc
    have hs' : startsWithSlash p = true := by
      cases hsw : startsWithSlash p
      · exact absurd hsw hs
      · rfl
    rw [resolvePath_ok_of_no_dotdot root p hs' hd] at h
    exact Except.noConfusion h
  · intro h
    rcases h with h | h
    · exact resolvePath_err_not_abs root p h
    · exact resolvePath_err_dotdot root p h

/-- C4 witness: the amended characterization applied to the relative path
".." which is rejected with IllegalPath. -/
theorem c4_reject_iff_witness :
    resolvePath rootDemo [46, 46] = .error SrvErr.illegalPath :=
  (c4_reject_iff rootDemo [46, 46]).mpr (by decide)

/-- C1 (exhibiting the code bug): the response loop writes only whole
100 KiB chunks, so the bytes streamed for contents c are the longest prefix
of c whose length is a multiple of SIZE; in particular a 1-byte file is
served as an empty response, contradicting byte-identical round-tripping. -/
theorem c1_final_chunk_dropped :
    (∀ c : List Nat, streamFile c = c.take (SIZE * (c.length / SIZE))) ∧
    streamFile [97] = [] ∧ ([97] : List Nat) ≠ [] ∧
    Wire.bytes (statusWire (Status.ok [97])) = [] := by
  have hgen : ∀ c : List Nat, streamFile c = c.take (SIZE * (c.length / SIZE)) :=
    fun c => streamChunks_flatten c
  have h97 : streamFile [97] = [] := by
    rw [hgen [97]]
    have : SIZE * (([97] : List Nat).length / SIZE) = 0 := by decide
    rw [this]
    rfl
  exact ⟨hgen, h97, by decide, h97⟩

/-- C5: for every request whose resolved path fails to open, the handler
responds with the NotFound status, whose wire form is exactly one write of
the literal "HTTP/3 404 NotFound" CRLF line followed by finish, and the
handler returns normally: the condition is recovered, not surfaced as an
error. -/
theorem c5_not_found_exact (fs : List (List Nat) → Option (List Nat))
    (root : List (List Nat)) (req p : List Nat) (rp : List (List Nat))
    (hparse : parseRequest req = .ok p) (hres : resolvePath root p = .ok rp)
    (hopen : fs rp = none) :
    handle_request fs root req = (.ok Status.notFound, [rp]) ∧
    statusWire Status.notFound = ⟨[NOT_FOUND_LINE], true⟩ := by
  constructor
  · unfold handle_request
    rw [hparse]
    simp only [afterParse]
    rw [hres]
    simp only [afterResolve]
    rw [hopen]
    simp only [openAt]
  · rfl

/-- C5 witness: on the empty filesystem, the request "GET /a" CRLF receives
exactly the not-found wire response. -/
theorem c5_not_found_witness :
    handle_request emptyFS rootDemo [71, 69, 84, 32, 47, 97, 13, 10] =
      (.ok Status.notFound, [[[115, 114, 118], [97]]]) ∧
    statusWire Status.notFound = ⟨[NOT_FOUND_LINE], true⟩ :=
  c5_not_found_exact emptyFS rootDemo [71, 69, 84, 32, 47, 97, 13, 10] [47, 97]
    [[115, 114, 118], [97]] rfl rfl rfl

/-- C8: for every request that passes parsing and path resolution, the
handler produces exactly one response status: NotFound when the open fails,
Ok carrying the opened file's contents when it succeeds — never both and
never neither. -/
theorem c8_unique_status (fs : List (List Nat) → Option (List Nat))
    (root : List (List Nat)) (req p : List Nat) (rp : List (List Nat))
    (hparse : parseRequest req = .ok p) (hres : resolvePath root p = .ok rp) :
    ∃! s : Status, (handle_request fs root req).1 = .ok s ∧
      ((fs rp = none ∧ s = Status.notFound) ∨
        (∃ c, fs rp = some c ∧ s = Status.ok c)) := by
  cases hopen : fs rp with
  | none =>
    have h1 : (handle_request fs root req).1 = .ok Status.notFound := by
      unfold handle_request
      rw [hparse]
      simp only [afterParse]
      rw [hres]
      simp only [afterResolve]
      rw [hopen]
      simp only [openAt]
    refine ⟨Status.notFound, ⟨h1, Or.inl ⟨rfl, rfl⟩⟩, ?_⟩
    intro y hy
    have h2 := hy.1
    rw [h1] at h2
    exact (Except.ok.inj h2).symm
  | some c =>
    have h1 : (handle_request fs root req).1 = .ok (Status.ok c) := by
      unfold handle_request
      rw [hparse]
      simp only [afterParse]
      rw [hres]
      simp only [afterResolve]
      rw [hopen]
      simp only [openAt]
    refine ⟨Status.ok c, ⟨h1, Or.inr ⟨c, rfl, rfl⟩⟩, ?_⟩
    intro y hy
    have h2 := hy.1
    rw [h1] at h2
    exact (Except.ok.inj h2).symm

/-- C8 witness: on the filesystem holding srv/a with contents "hi", the
request "GET /a" CRLF produces exactly one status, the Ok stream of that
file. -/
theorem c8_unique_status_witness :
    ∃! s : Status,
      (handle_request demoFS rootDemo [71, 69, 84, 32, 47, 97, 13, 10]).1 = .ok s ∧
      ((demoFS [[115, 114, 118], [97]] = none ∧ s = Status.notFound) ∨
        (∃ c, demoFS [[115, 114, 118], [97]] = some c ∧ s = Status.ok c)) :=
  c8_unique_status demoFS rootDemo [71, 69, 84, 32, 47, 97, 13, 10] [47, 97]
    [[115, 114, 118], [97]] rfl rfl

end QServer
